import Mathlib

/-!
Verification development for the Global Echo pronunciation-coaching front end.

The repository is a browser application: `App.tsx` holds the session state and
the event handlers (study / play model audio / record / evaluate), and
`services/geminiService.ts` holds the remote-call wrappers together with the
audio helpers (`decode`, `decodeAudioData`, `generateTTS`,
`evaluatePronunciation`, `getPhoneticTranscription`).

This file is a shallow embedding of that code:

* platform string primitives used by the code (`trim`, the `||` default,
  `JSON.parse`, `atob`) are modelled as executable Lean functions on the
  fragment of their behaviour the code exercises;
* each service function is translated into a pure function from the remote
  response (the data the platform hands back) to its result, with thrown
  exceptions modelled by `Except` / `Option`;
* each `App.tsx` handler is translated into a pure state transformer
  `AppState → AppState × List Ev`, where `Ev` records the externally visible
  effects (remote calls, alerts, audio playback, track release) in the order
  the handler performs them.  An `await` of a remote call is modelled by
  passing the settled outcome of that call as an argument.
-/

namespace GlobalEcho

/-! ## JavaScript string primitives used by the code -/

/-- Whitespace as recognised by the fragment of `String.prototype.trim`
exercised by the app (ASCII space, tab, newline, carriage return). -/
def isJsSpace (c : Char) : Bool :=
  c == ' ' || c == '\t' || c == '\n' || c == '\r'

/-- Model of `s.trim()`. -/
def jsTrim (s : String) : String :=
  String.mk (((s.toList.dropWhile isJsSpace).reverse.dropWhile isJsSpace).reverse)

/-- Model of the JavaScript expression `t || d` for a string `t` that may be
`undefined`: the default is used when `t` is absent or the empty string
(both are falsy). -/
def jsOrStr (t : Option String) (d : String) : String :=
  match t with
  | none => d
  | some s => if s = "" then d else s

/-! ## JSON values and a model of `JSON.parse`

The service code calls the platform `JSON.parse` on the raw response text and
returns the parsed value unchecked.  We model JSON values as an inductive type
and `JSON.parse` as an executable recursive-descent parser over the JSON
grammar (numbers are represented exactly, as rationals). -/

/-- A JSON value. -/
inductive Json where
  | null : Json
  | bool (b : Bool) : Json
  | num (q : ℚ) : Json
  | str (s : String) : Json
  | arr (elems : List Json) : Json
  | obj (fields : List (String × Json)) : Json

/-- JSON insignificant whitespace. -/
def isJsonWs (c : Char) : Bool :=
  c == ' ' || c == '\t' || c == '\n' || c == '\r'

/-- Skip insignificant whitespace. -/
def skipWs : List Char → List Char
  | [] => []
  | c :: cs => if isJsonWs c then skipWs cs else c :: cs

/-- Value of a hexadecimal digit. -/
def hexVal (c : Char) : Option Nat :=
  if '0' ≤ c ∧ c ≤ '9' then some (c.toNat - '0'.toNat)
  else if 'a' ≤ c ∧ c ≤ 'f' then some (c.toNat - 'a'.toNat + 10)
  else if 'A' ≤ c ∧ c ≤ 'F' then some (c.toNat - 'A'.toNat + 10)
  else none

/-- Decimal digit test. -/
def isDigitCh (c : Char) : Bool :=
  '0' ≤ c && c ≤ '9'

/-- Numeric value of a list of decimal digits. -/
def digitsVal (ds : List Char) : Nat :=
  ds.foldl (fun acc c => acc * 10 + (c.toNat - '0'.toNat)) 0

/-- Parse the body of a JSON string literal (the opening quote already
consumed), returning the decoded characters and the rest of the input. -/
def parseStrBody : Nat → List Char → List Char → Option (String × List Char)
  | 0, _, _ => none
  | _ + 1, _, [] => none
  | fuel + 1, acc, c :: cs =>
    if c = '"' then some (String.mk acc.reverse, cs)
    else if c = '\\' then
      match cs with
      | [] => none
      | e :: cs2 =>
        if e = '"' then parseStrBody fuel ('"' :: acc) cs2
        else if e = '\\' then parseStrBody fuel ('\\' :: acc) cs2
        else if e = '/' then parseStrBody fuel ('/' :: acc) cs2
        else if e = 'n' then parseStrBody fuel ('\n' :: acc) cs2
        else if e = 't' then parseStrBody fuel ('\t' :: acc) cs2
        else if e = 'r' then parseStrBody fuel ('\r' :: acc) cs2
        else if e = 'b' then parseStrBody fuel (Char.ofNat 8 :: acc) cs2
        else if e = 'f' then parseStrBody fuel (Char.ofNat 12 :: acc) cs2
        else if e = 'u' then
          match cs2 with
          | h1 :: h2 :: h3 :: h4 :: cs3 =>
            match hexVal h1, hexVal h2, hexVal h3, hexVal h4 with
            | some x1, some x2, some x3, some x4 =>
              parseStrBody fuel (Char.ofNat (((x1 * 16 + x2) * 16 + x3) * 16 + x4) :: acc) cs3
            | _, _, _, _ => none
          | _ => none
        else none
    else parseStrBody fuel (c :: acc) cs

/-- Parse the optional fraction part of a JSON number (returns its rational
value, zero when absent). -/
def parseFrac (cs : List Char) : Option (ℚ × List Char) :=
  match cs with
  | '.' :: rest =>
    let fds := rest.takeWhile isDigitCh
    if fds = [] then none
    else some ((digitsVal fds : ℚ) / (10 : ℚ) ^ fds.length, rest.dropWhile isDigitCh)
  | _ => some (0, cs)

/-- Parse the optional exponent part of a JSON number and apply it to the
mantissa. -/
def parseExpPart (q : ℚ) (cs : List Char) : Option (ℚ × List Char) :=
  match cs with
  | 'e' :: rest | 'E' :: rest =>
    let signedRest :=
      match rest with
      | '-' :: r => (true, r)
      | '+' :: r => (false, r)
      | _ => (false, rest)
    let eds := signedRest.2.takeWhile isDigitCh
    if eds = [] then none
    else
      let factor : ℚ := (10 : ℚ) ^ digitsVal eds
      some (if signedRest.1 then q / factor else q * factor,
        signedRest.2.dropWhile isDigitCh)
  | _ => some (q, cs)

/-- Parse a JSON number starting at the current position (grammar:
optional minus, integer part without leading zeros, optional fraction,
optional exponent), returning its exact rational value. -/
def parseNum (cs : List Char) : Option (ℚ × List Char) :=
  let signed :=
    match cs with
    | '-' :: rest => (true, rest)
    | _ => (false, cs)
  let intDigits := signed.2.takeWhile isDigitCh
  let cs2 := signed.2.dropWhile isDigitCh
  if intDigits = [] then none
  else if intDigits.length > 1 ∧ intDigits.headD '0' = '0' then none
  else
    match parseFrac cs2 with
    | none => none
    | some (fq, cs3) =>
      let base : ℚ := (digitsVal intDigits : ℚ) + fq
      parseExpPart (if signed.1 then -base else base) cs3

/-- The opening-brace character (written via its code point). -/
def lbraceCh : Char := Char.ofNat 123

/-- The closing-brace character (written via its code point). -/
def rbraceCh : Char := Char.ofNat 125

mutual

/-- Parse one JSON value (recursive descent, fuel-bounded). -/
def parseVal : Nat → List Char → Option (Json × List Char)
  | 0, _ => none
  | fuel + 1, cs0 =>
    match skipWs cs0 with
    | [] => none
    | 'n' :: 'u' :: 'l' :: 'l' :: rest => some (Json.null, rest)
    | 't' :: 'r' :: 'u' :: 'e' :: rest => some (Json.bool true, rest)
    | 'f' :: 'a' :: 'l' :: 's' :: 'e' :: rest => some (Json.bool false, rest)
    | '"' :: rest =>
      match parseStrBody (rest.length + 1) [] rest with
      | some (s, rest2) => some (Json.str s, rest2)
      | none => none
    | '[' :: rest =>
      match skipWs rest with
      | ']' :: rest2 => some (Json.arr [], rest2)
      | _ =>
        match parseArrTail fuel rest with
        | some (elems, rest2) => some (Json.arr elems, rest2)
        | none => none
    | c :: rest =>
      if c = lbraceCh then
        match skipWs rest with
        | c2 :: rest2 =>
          if c2 = rbraceCh then some (Json.obj [], rest2)
          else
            match parseObjTail fuel rest with
            | some (fields, rest3) => some (Json.obj fields, rest3)
            | none => none
        | [] => none
      else
        match parseNum (c :: rest) with
        | some (q, rest2) => some (Json.num q, rest2)
        | none => none

/-- Parse the elements of a non-empty JSON array, up to and including the
closing bracket. -/
def parseArrTail : Nat → List Char → Option (List Json × List Char)
  | 0, _ => none
  | fuel + 1, cs =>
    match parseVal fuel cs with
    | none => none
    | some (v, rest) =>
      match skipWs rest with
      | ',' :: rest2 =>
        match parseArrTail fuel rest2 with
        | some (vs, rest3) => some (v :: vs, rest3)
        | none => none
      | ']' :: rest2 => some ([v], rest2)
      | _ => none

/-- Parse the members of a non-empty JSON object, up to and including the
closing brace. -/
def parseObjTail : Nat → List Char → Option (List (String × Json) × List Char)
  | 0, _ => none
  | fuel + 1, cs =>
    match skipWs cs with
    | '"' :: rest =>
      match parseStrBody (rest.length + 1) [] rest with
      | none => none
      | some (key, rest2) =>
        match skipWs rest2 with
        | ':' :: rest3 =>
          match parseVal fuel rest3 with
          | none => none
          | some (v, rest4) =>
            match skipWs rest4 with
            | ',' :: rest5 =>
              match parseObjTail fuel rest5 with
              | some (fs, rest6) => some ((key, v) :: fs, rest6)
              | none => none
            | c :: rest5 =>
              if c = rbraceCh then some ([(key, v)], rest5) else none
            | [] => none
        | _ => none
    | _ => none

end

/-- Model of `JSON.parse`: parse one value, require only whitespace after it;
`none` models a thrown `SyntaxError`. -/
def jsonParse (s : String) : Option Json :=
  match parseVal (2 * s.length + 4) s.toList with
  | some (j, rest) => if skipWs rest = [] then some j else none
  | none => none

/-! ## Domain types (`types.ts`) -/

/-- The `Accent` enum of `types.ts`. -/
inductive Accent where
  | USA
  | India
  | Singapore
  | Australia
  | HongKong
deriving DecidableEq, Repr

/-- The `Tone` enum of `types.ts`. -/
inductive Tone where
  | Cheerful
  | Flat
  | Business
  | Inquisitive
  | Serious
deriving DecidableEq, Repr

/-- String value of an `Accent` enum member. -/
def Accent.label : Accent → String
  | .USA => "USA"
  | .India => "India"
  | .Singapore => "Singapore"
  | .Australia => "Australia"
  | .HongKong => "Hong Kong"

/-- String value of a `Tone` enum member. -/
def Tone.label : Tone → String
  | .Cheerful => "Cheerful"
  | .Flat => "Flat"
  | .Business => "Business-like"
  | .Inquisitive => "Inquisitive"
  | .Serious => "Serious"

/-- The `CategoryEvaluation` interface of `types.ts`. -/
structure CategoryEvaluation where
  score : Int
  advice : String
deriving DecidableEq, Repr

/-- The `DetailedEvaluation` interface of `types.ts`. -/
structure DetailedEvaluation where
  overallScore : Int
  pronunciation : CategoryEvaluation
  prosody : CategoryEvaluation
  fluency : CategoryEvaluation
  chunking : CategoryEvaluation
  expressiveness : CategoryEvaluation
deriving DecidableEq, Repr

/-- The `WordIPA` interface exported by `geminiService.ts`; the optional
fields model TypeScript optional members. -/
structure WordIPA where
  word : String
  ipa : String
  linksToNext : Option Bool := none
  linkingType : Option String := none
  isReduced : Option Bool := none
deriving DecidableEq, Repr

/-! ## Base64 (`decode` helper of `geminiService.ts`)

`decode` calls the platform `atob` and packs the code units into a
`Uint8Array`.  We model the composite directly: base64 text to the list of
decoded bytes, with `none` modelling the `InvalidCharacterError` that `atob`
throws on invalid input. -/

/-- Value of one base64 alphabet character. -/
def b64Val (c : Char) : Option Nat :=
  if 'A' ≤ c ∧ c ≤ 'Z' then some (c.toNat - 'A'.toNat)
  else if 'a' ≤ c ∧ c ≤ 'z' then some (c.toNat - 'a'.toNat + 26)
  else if '0' ≤ c ∧ c ≤ '9' then some (c.toNat - '0'.toNat + 52)
  else if c = '+' then some 62
  else if c = '/' then some 63
  else none

/-- Repack a list of 6-bit values into bytes (groups of four values give
three bytes; a final group of two or three gives one or two bytes). -/
def b64Group : List Nat → List Nat
  | a :: b :: c :: d :: rest =>
    (a * 4 + b / 16) :: ((b % 16) * 16 + c / 4) :: ((c % 4) * 64 + d) :: b64Group rest
  | [a, b] => [a * 4 + b / 16]
  | [a, b, c] => [a * 4 + b / 16, (b % 16) * 16 + c / 4]
  | _ => []

/-- The `decode` helper of `geminiService.ts`: base64 text to bytes
(`atob` composed with per-character `charCodeAt` packing). -/
def decode (s : String) : Option (List Nat) :=
  let core := (s.toList.reverse.dropWhile (fun c => c == '=')).reverse
  match core.mapM b64Val with
  | none => none
  | some vs => if vs.length % 4 = 1 then none else some (b64Group vs)

/-! ## PCM decoding (`decodeAudioData` of `geminiService.ts`) -/

/-- Reassemble one little-endian two's-complement 16-bit sample from two
bytes, as the `Int16Array` view over the byte buffer does. -/
def bytesToInt16 (lo hi : Nat) : Int :=
  let u := lo + 256 * hi
  if u < 32768 then (u : Int) else (u : Int) - 65536

/-- The `new Int16Array(data.buffer)` view over the byte list: defined only
when the byte length is even (an odd-length buffer makes the constructor
throw a `RangeError`, modelled as `none`). -/
def int16View : List Nat → Option (List Int)
  | [] => some []
  | [_] => none
  | lo :: hi :: rest => (int16View rest).map (fun t => bytesToInt16 lo hi :: t)

/-- A Web Audio `AudioBuffer`: one list of samples per channel.  Samples are
modelled as exact rationals (the idealisation of the float32 channel data). -/
structure AudioBuffer where
  sampleRate : Nat
  numberOfChannels : Nat
  channels : List (List ℚ)

/-- The `decodeAudioData` helper of `geminiService.ts`: view the bytes as
16-bit samples, allocate `frameCount = dataInt16.length / numChannels`
frames with `ctx.createBuffer`, and fill channel `channel` at frame `i`
with `dataInt16[i * numChannels + channel] / 32768`.  `createBuffer` throws
`NotSupportedError` when the requested length is zero, so a zero frame
count (e.g. the empty payload) yields `none`; an odd byte length already
fails at the `Int16Array` view.  (The division producing `frameCount` is
exact for the mono payloads the app decodes.) -/
def decodeAudioData (data : List Nat) (sampleRate : Nat) (numChannels : Nat) :
    Option AudioBuffer :=
  match int16View data with
  | none => none
  | some dataInt16 =>
    let frameCount := dataInt16.length / numChannels
    if frameCount = 0 then none
    else
      some
        { sampleRate := sampleRate
          numberOfChannels := numChannels
          channels :=
            (List.range numChannels).map (fun channel =>
              (List.range frameCount).map (fun i =>
                ((dataInt16.getD (i * numChannels + channel) 0 : Int) : ℚ) / 32768)) }

/-! ## Remote-call wrappers (`geminiService.ts`)

Each wrapper is modelled as a function from the settled remote response to
the value the wrapper resolves with; a thrown / rejected outcome is an
`Except.error` carrying the `Error` message. -/

/-- The part of a `generateContent` response that `generateTTS` reads:
`response.candidates?.[0]?.content?.parts?.[0]?.inlineData?.data`, collapsed
into one optional field (`none` models `undefined` anywhere along the
optional chain). -/
structure TTSResponse where
  audioData : Option String
deriving DecidableEq, Repr

/-- The part of a `generateContent` response that the text wrappers read:
the `response.text` accessor (`none` models `undefined`). -/
structure GenResponse where
  text : Option String
deriving DecidableEq, Repr

/-- The synthesis prompt string built by `generateTTS`. -/
def ttsPrompt (text : String) (accent : Accent) (tone : Tone) (speed : Nat) : String :=
  "Say with a distinct " ++ accent.label ++ " accent and a " ++ tone.label ++
    " tone. \n  Speaking rate: " ++ toString speed ++ "%. \n  Text: " ++ text

/-- `generateTTS` of `geminiService.ts`, given the remote response: extract
the base64 audio, throw `"No audio returned from Gemini"` when it is absent
or empty (JavaScript falsy check `!base64Audio`), otherwise decode the bytes
and build the 24 kHz mono buffer.  The failures of `decode` (`atob`) and of
`decodeAudioData` (the `Int16Array` view on odd byte length, `createBuffer`
on a zero frame count) propagate as thrown platform errors. -/
def generateTTS (text : String) (accent : Accent) (tone : Tone) (speed : Nat)
    (resp : TTSResponse) : Except String AudioBuffer :=
  let _prompt := ttsPrompt text accent tone speed
  match resp.audioData with
  | none => .error "No audio returned from Gemini"
  | some base64Audio =>
    if base64Audio = "" then .error "No audio returned from Gemini"
    else
      match decode base64Audio with
      | none => .error "InvalidCharacterError"
      | some bytes =>
        match decodeAudioData bytes 24000 1 with
        | some audioBuffer => .ok audioBuffer
        | none => .error "AudioDecodeError"

/-- `evaluatePronunciation` of `geminiService.ts`, given the remote
response: parse `response.text || "\x7b\x7d"`; on parse failure throw
`"Failed to parse evaluation result."`, otherwise resolve with the parsed
JSON (the TypeScript code casts it to `DetailedEvaluation` unchecked). -/
def evaluatePronunciation (resp : GenResponse) : Except String Json :=
  match jsonParse (jsOrStr resp.text "\x7b\x7d") with
  | some j => .ok j
  | none => .error "Failed to parse evaluation result."

/-- `getPhoneticTranscription` of `geminiService.ts`, given the remote
response: parse `response.text || "[]"`; on parse failure log and resolve
with the empty array (the catch swallows the error), otherwise resolve with
the parsed JSON (cast to `WordIPA[]` unchecked). -/
def getPhoneticTranscription (resp : GenResponse) : Json :=
  match jsonParse (jsOrStr resp.text "[]") with
  | some j => j
  | none => Json.arr []

/-! ## Session state and handlers (`App.tsx`)

The component state is the record of the `useState` hooks.  Each handler is
a pure transformer from the pre-call state (the values its closure reads)
and the settled outcomes of the remote calls it awaits, to the post-call
state together with the ordered list of externally visible effects. -/

/-- A `MediaStream`: its hardware tracks, `true` while a track is live. -/
structure MediaStream where
  tracks : List Bool
deriving DecidableEq, Repr

/-- The `useState` hooks of the `App` component. -/
structure AppState where
  inputText : String
  phoneticData : List WordIPA
  selectedAccent : Accent
  selectedTone : Tone
  selectedSpeed : Nat
  isGenerating : Bool
  isRecording : Bool
  evaluation : Option DetailedEvaluation
  isEvaluating : Bool
  isFetchingIPA : Bool
  mediaStream : Option MediaStream
deriving DecidableEq, Repr

/-- Externally visible effects performed by the handlers, in program order. -/
inductive Ev where
  | transcribeCall (text : String)
  | alertShown (msg : String)
  | synthCall (text : String) (accent : Accent) (tone : Tone) (speed : Nat)
  | playAudio
  | blobAssembled (blob : List Nat)
  | evalCall (text : String) (blob : List Nat)
  | trackStop
deriving DecidableEq, Repr

/-- Whether an event is the evaluation request. -/
def Ev.isEvalCall : Ev → Bool
  | .evalCall _ _ => true
  | _ => false

/-- Whether an event is the hardware-track release. -/
def Ev.isTrackStop : Ev → Bool
  | .trackStop => true
  | _ => false

/-- Whether an event is the blob assembly. -/
def Ev.isBlobAssembled : Ev → Bool
  | .blobAssembled _ => true
  | _ => false

/-- Whether an event is the audio playback start. -/
def Ev.isPlayAudio : Ev → Bool
  | .playAudio => true
  | _ => false

/-- `beforeIn p q l` holds when the first event satisfying `p` is followed
(strictly later in the list) by an event satisfying `q`. -/
def beforeIn (p q : Ev → Bool) : List Ev → Bool
  | [] => false
  | e :: es => if p e then es.any q else beforeIn p q es

/-- All hardware tracks of a stream are stopped. -/
def MediaStream.allStopped (m : MediaStream) : Bool :=
  m.tracks.all (fun t => !t)

/-- Model of `stream.getTracks().forEach(track => track.stop())`. -/
def MediaStream.stopAll (m : MediaStream) : MediaStream :=
  ⟨m.tracks.map (fun _ => false)⟩

/-- The alert text of the `handleStudy` failure path. -/
def studyAlertMsg : String := "Failed to analyze text. Please try again."

/-- `handleStudy` of `App.tsx`, parameterised by the settled outcome of
`getPhoneticTranscription` (the value it resolves with, or the rejection):
empty trimmed input clears the phonetic data and returns; otherwise set the
fetching flag, clear the evaluation, and either store the new data or alert,
resetting the fetching flag in the `finally`. -/
def handleStudy (s : AppState) (res : Except String (List WordIPA)) :
    AppState × List Ev :=
  if jsTrim s.inputText = "" then ({ s with phoneticData := [] }, [])
  else
    let s1 := { s with isFetchingIPA := true, evaluation := none }
    let s2 :=
      match res with
      | .ok data => { s1 with phoneticData := data }
      | .error _ => s1
    let evs :=
      match res with
      | .ok _ => [Ev.transcribeCall s.inputText]
      | .error _ => [Ev.transcribeCall s.inputText, Ev.alertShown studyAlertMsg]
    ({ s2 with isFetchingIPA := false }, evs)

/-- `handleInputChange` of `App.tsx`: store the new text; when phonetic data
was present, clear it together with the evaluation. -/
def handleInputChange (s : AppState) (newText : String) : AppState :=
  let s1 := { s with inputText := newText }
  if s.phoneticData.length > 0 then
    { s1 with phoneticData := [], evaluation := none }
  else s1

/-- `handlePlayModelAudio` of `App.tsx`, parameterised by the remote
synthesis response: guard on trimmed-empty text or empty phonetic data; past
the guard, set the generating flag, call `generateTTS`, play the buffer on
success (errors are only logged), and reset the generating flag in the
`finally`. -/
def handlePlayModelAudio (s : AppState) (resp : TTSResponse) :
    AppState × List Ev :=
  if jsTrim s.inputText = "" ∨ s.phoneticData = [] then (s, [])
  else
    let s1 := { s with isGenerating := true }
    let callEv := Ev.synthCall s.inputText s.selectedAccent s.selectedTone s.selectedSpeed
    match generateTTS s.inputText s.selectedAccent s.selectedTone s.selectedSpeed resp with
    | .ok _buffer => ({ s1 with isGenerating := false }, [callEv, Ev.playAudio])
    | .error _ => ({ s1 with isGenerating := false }, [callEv])

/-- `handleFinishPractice` of `App.tsx`, parameterised by the settled
outcome of `evaluatePronunciation`: set the evaluating flag, store the
result on success, only log on error, and reset the evaluating flag in the
`finally`. -/
def handleFinishPractice (s : AppState) (blob : List Nat)
    (res : Except String DetailedEvaluation) : AppState × List Ev :=
  let s1 := { s with isEvaluating := true }
  let s2 :=
    match res with
    | .ok result => { s1 with evaluation := some result }
    | .error _ => s1
  ({ s2 with isEvaluating := false }, [Ev.evalCall s.inputText blob])

/-- The `mediaRecorder.onstop` handler installed by `startRecording`:
assemble the recorded chunks into one blob, `await handleFinishPractice`
(which never rejects: its `try` / `catch` / `finally` absorbs evaluation
failure), then stop every track of the captured stream and null the stream
state.  Returns the post-handler component state, the final state of the
captured stream object, and the effect trace. -/
def onstop (s : AppState) (stream : MediaStream) (chunks : List (List Nat))
    (res : Except String DetailedEvaluation) :
    AppState × MediaStream × List Ev :=
  let audioBlob := chunks.flatten
  let finishRes := handleFinishPractice s audioBlob res
  let stopped := stream.stopAll
  ({ finishRes.1 with mediaStream := none }, stopped,
    Ev.blobAssembled audioBlob :: finishRes.2 ++ [Ev.trackStop])

/-- The disabled guard of the LISTEN TO MODEL button in the `App` render:
`isGenerating || phoneticData.length === 0`. -/
def listenToModelDisabled (s : AppState) : Bool :=
  s.isGenerating || s.phoneticData.length == 0

/-! ## Concrete fixtures for witnesses and counterexamples -/

/-- A sample phonetic word. -/
def sampleWord : WordIPA :=
  { word := "Hello", ipa := "h@lou", linksToNext := some false,
    linkingType := none, isReduced := some false }

/-- A component state after a successful study of non-empty text. -/
def studiedState : AppState :=
  { inputText := "Hello world"
    phoneticData := [sampleWord]
    selectedAccent := .USA
    selectedTone := .Business
    selectedSpeed := 50
    isGenerating := false
    isRecording := false
    evaluation := none
    isEvaluating := false
    isFetchingIPA := false
    mediaStream := none }

/-! ## Claim theorems -/

/-- C1: for every recording session that is stopped, every hardware track of
the captured stream is stopped on every path of the `onstop` handler — the
evaluation outcome (`res` ranges over success and rejection) does not
matter, because `handleFinishPractice` absorbs the rejection and the
`track.stop()` loop runs after its `await` returns; the stream state is also
nulled, and the release step appears in the effect trace. -/
theorem onstop_releases_stream_on_every_path (s : AppState)
    (stream : MediaStream) (chunks : List (List Nat))
    (res : Except String DetailedEvaluation) :
    (onstop s stream chunks res).2.1.allStopped = true ∧
    (onstop s stream chunks res).1.mediaStream = none ∧
    Ev.trackStop ∈ (onstop s stream chunks res).2.2 := by
  refine ⟨?_, rfl, ?_⟩
  · simp [onstop, MediaStream.stopAll, MediaStream.allStopped]
  · simp [onstop, handleFinishPractice]

/-- C3 counterexample: in the actual `onstop` trace the evaluation request
is initiated before the hardware tracks are stopped, not after — at a
concrete stopped recording the release step does not precede the evaluation
call, while the evaluation call does precede the release step. -/
theorem onstop_release_not_before_eval_counterexample :
    beforeIn Ev.isTrackStop Ev.isEvalCall
      (onstop studiedState ⟨[true, true]⟩ [[1, 2]] (.error "network failure")).2.2
      = false ∧
    beforeIn Ev.isEvalCall Ev.isTrackStop
      (onstop studiedState ⟨[true, true]⟩ [[1, 2]] (.error "network failure")).2.2
      = true := by
  exact ⟨rfl, rfl⟩

/-- C3 amended: in the `endRecording` sequence the capture session is first
finalized into one audio blob, then the evaluation request is initiated and
awaited, and only after the evaluation settles (successfully or not) is the
hardware stream released; the release still happens unconditionally. -/
theorem onstop_blob_then_eval_then_release (s : AppState)
    (stream : MediaStream) (chunks : List (List Nat))
    (res : Except String DetailedEvaluation) :
    beforeIn Ev.isBlobAssembled Ev.isEvalCall (onstop s stream chunks res).2.2 = true ∧
    beforeIn Ev.isEvalCall Ev.isTrackStop (onstop s stream chunks res).2.2 = true ∧
    Ev.trackStop ∈ (onstop s stream chunks res).2.2 := by
  refine ⟨?_, ?_, ?_⟩ <;>
    simp [onstop, handleFinishPractice, beforeIn, Ev.isBlobAssembled,
      Ev.isEvalCall, Ev.isTrackStop, List.any]

/-- C5: when the evaluation request rejects, `handleFinishPractice` stores
nothing — the displayed evaluation is exactly what it was before the call —
and the evaluating flag is reset; moreover the evaluating flag ends false on
every path, success included. -/
theorem evaluation_failure_stores_nothing (s : AppState) (blob : List Nat)
    (e : String) :
    (handleFinishPractice s blob (.error e)).1.evaluation = s.evaluation ∧
    (handleFinishPractice s blob (.error e)).1.isEvaluating = false ∧
    ∀ res, (handleFinishPractice s blob res).1.isEvaluating = false := by
  refine ⟨rfl, rfl, fun res => ?_⟩
  cases res <;> rfl

/-- C4: playback is unreachable whenever the phonetic sequence is empty or
the input text is empty / whitespace-only: `handlePlayModelAudio` returns
with the state unchanged (no generating flag set) and an empty effect trace
(no synthesis request), for every configuration held in the state; and with
empty phonetic data the LISTEN TO MODEL button is disabled as well. -/
theorem playback_unreachable_without_phonetic_data (s : AppState)
    (resp : TTSResponse)
    (h : s.phoneticData = [] ∨ jsTrim s.inputText = "") :
    handlePlayModelAudio s resp = (s, []) ∧
    (s.phoneticData = [] → listenToModelDisabled s = true) := by
  constructor
  · unfold handlePlayModelAudio
    rw [if_pos (h.elim .inr .inl)]
  · intro hpd
    simp [listenToModelDisabled, hpd]

/-- C4 witness: concrete run of the guard with empty phonetic data. -/
theorem playback_unreachable_without_phonetic_data_witness :
    handlePlayModelAudio { studiedState with phoneticData := [] }
      ⟨some "AAAA"⟩ = ({ studiedState with phoneticData := [] }, []) :=
  (playback_unreachable_without_phonetic_data
    { studiedState with phoneticData := [] } ⟨some "AAAA"⟩ (Or.inl rfl)).1

/-- C2 counterexample: `handleStudy` does not clear the prior phonetic
sequence — at a concrete state holding a previously studied word, a failing
transcribe call leaves the phonetic data at its prior non-empty value, not
empty. -/
theorem study_failure_not_empty_counterexample :
    ¬ (handleStudy { studiedState with inputText := "Hello" }
        (.error "network failure")).1.phoneticData = [] := by
  decide

/-- C2 amended: for every non-empty (after trimming) input text,
`handleStudy` clears the prior evaluation result and always exits the
fetching state; on failure of the transcribe call it leaves the phonetic
data unchanged (the prior sequence is retained — clearing happens in
`handleInputChange` when the text is edited, not here) and surfaces a
user-visible alert. -/
theorem study_clears_evaluation_and_exits_fetching (s : AppState)
    (res : Except String (List WordIPA)) (h : jsTrim s.inputText ≠ "") :
    (handleStudy s res).1.isFetchingIPA = false ∧
    (handleStudy s res).1.evaluation = none ∧
    ∀ e, res = .error e →
      (handleStudy s res).1.phoneticData = s.phoneticData ∧
      Ev.alertShown studyAlertMsg ∈ (handleStudy s res).2 := by
  unfold handleStudy
  rw [if_neg h]
  refine ⟨?_, ?_, fun e he => ?_⟩
  · cases res <;> rfl
  · cases res <;> rfl
  · subst he
    exact ⟨rfl, by simp⟩

/-- C2 amended witness: concrete failing study on non-empty text. -/
theorem study_clears_evaluation_and_exits_fetching_witness :
    (handleStudy { studiedState with inputText := "Hello" }
        (.error "network failure")).1.isFetchingIPA = false ∧
    (handleStudy { studiedState with inputText := "Hello" }
        (.error "network failure")).1.evaluation = none ∧
    ∀ e, (Except.error "network failure" : Except String (List WordIPA)) = .error e →
      (handleStudy { studiedState with inputText := "Hello" }
          (.error "network failure")).1.phoneticData
        = ({ studiedState with inputText := "Hello" } : AppState).phoneticData ∧
      Ev.alertShown studyAlertMsg ∈
        (handleStudy { studiedState with inputText := "Hello" }
          (.error "network failure")).2 :=
  study_clears_evaluation_and_exits_fetching
    { studiedState with inputText := "Hello" } (.error "network failure")
    (by decide)

/-- C6: when the synthesis response carries no audio data, `generateTTS`
throws the hard failure `"No audio returned from Gemini"`, and
`handlePlayModelAudio` (past its guard, so the call is actually made)
nevertheless completes normally: it plays no audio and leaves the
generating flag false. -/
theorem no_audio_is_hard_failure (s : AppState) (resp : TTSResponse)
    (haud : resp.audioData = none) (htext : jsTrim s.inputText ≠ "")
    (hdata : s.phoneticData ≠ []) :
    generateTTS s.inputText s.selectedAccent s.selectedTone s.selectedSpeed resp
      = .error "No audio returned from Gemini" ∧
    (handlePlayModelAudio s resp).1.isGenerating = false ∧
    Ev.playAudio ∉ (handlePlayModelAudio s resp).2 := by
  have hg : generateTTS s.inputText s.selectedAccent s.selectedTone
      s.selectedSpeed resp = .error "No audio returned from Gemini" := by
    unfold generateTTS
    rw [haud]
  have hplay : handlePlayModelAudio s resp =
      ({ s with isGenerating := false },
        [Ev.synthCall s.inputText s.selectedAccent s.selectedTone s.selectedSpeed]) := by
    unfold handlePlayModelAudio
    rw [if_neg (by tauto), hg]
  rw [hplay]
  refine ⟨hg, rfl, by simp⟩

/-- C6 witness: concrete audio-less synthesis response in a studied state. -/
theorem no_audio_is_hard_failure_witness :
    generateTTS studiedState.inputText studiedState.selectedAccent
        studiedState.selectedTone studiedState.selectedSpeed ⟨none⟩
      = .error "No audio returned from Gemini" ∧
    (handlePlayModelAudio studiedState ⟨none⟩).1.isGenerating = false ∧
    Ev.playAudio ∉ (handlePlayModelAudio studiedState ⟨none⟩).2 :=
  no_audio_is_hard_failure studiedState ⟨none⟩ rfl (by decide) (by decide)

/-- C7: whenever the transcription response body fails to parse as JSON,
`getPhoneticTranscription` resolves with the empty array instead of
raising (the `catch` swallows the `JSON.parse` error). -/
theorem malformed_transcription_is_empty_sequence (resp : GenResponse)
    (h : jsonParse (jsOrStr resp.text "[]") = none) :
    getPhoneticTranscription resp = Json.arr [] := by
  unfold getPhoneticTranscription
  rw [h]

/-- C7 witness: a concrete non-JSON body (an unclosed brace). -/
theorem malformed_transcription_is_empty_sequence_witness :
    jsonParse (jsOrStr (some "\x7boops") "[]") = none ∧
    getPhoneticTranscription ⟨some "\x7boops"⟩ = Json.arr [] :=
  ⟨rfl, malformed_transcription_is_empty_sequence ⟨some "\x7boops"⟩ rfl⟩

/-- C9: when the evaluate response carries no text (absent or empty, both
falsy), `evaluatePronunciation` does not raise the parse-failure error: it
resolves with the result of parsing the default body, an object with no
fields at all. -/
theorem absent_eval_text_yields_empty_object (resp : GenResponse)
    (h : resp.text = none ∨ resp.text = some "") :
    evaluatePronunciation resp = .ok (Json.obj []) := by
  have hd : jsOrStr resp.text "\x7b\x7d" = "\x7b\x7d" := by
    rcases h with h | h <;> simp [jsOrStr, h]
  unfold evaluatePronunciation
  rw [hd]
  rfl

/-- C9 witness: concrete response with absent text. -/
theorem absent_eval_text_yields_empty_object_witness :
    evaluatePronunciation ⟨none⟩ = .ok (Json.obj []) :=
  absent_eval_text_yields_empty_object ⟨none⟩ (Or.inl rfl)

/-! ## Supporting lemmas for the PCM decoding claims -/

/-- A 16-bit sample reassembled from two bytes lies in the signed 16-bit
range. -/
theorem bytesToInt16_bounds (lo hi : Nat) (hlo : lo < 256) (hhi : hi < 256) :
    -32768 ≤ bytesToInt16 lo hi ∧ bytesToInt16 lo hi ≤ 32767 := by
  have hdef : bytesToInt16 lo hi =
      if lo + 256 * hi < 32768 then ((lo + 256 * hi : Nat) : Int)
      else ((lo + 256 * hi : Nat) : Int) - 65536 := rfl
  rw [hdef]
  split <;> omega

/-- A signed 16-bit value divided by 32768 lies in the half-open interval
from -1 (inclusive) to 1 (exclusive). -/
theorem sample_unit_range (v : Int) (h1 : -32768 ≤ v) (h2 : v ≤ 32767) :
    -1 ≤ (v : ℚ) / 32768 ∧ (v : ℚ) / 32768 < 1 := by
  constructor
  · rw [le_div_iff₀ (by norm_num : (0 : ℚ) < 32768)]
    have : (-32768 : ℚ) ≤ (v : ℚ) := by exact_mod_cast h1
    linarith
  · rw [div_lt_one (by norm_num : (0 : ℚ) < 32768)]
    exact_mod_cast lt_of_le_of_lt h2 (by norm_num)

/-- On an even-length byte list the `Int16Array` view is defined, has half
as many entries, and its `i`-th entry is the little-endian 16-bit sample
assembled from bytes `2 * i` and `2 * i + 1`. -/
theorem int16View_even (n : Nat) :
    ∀ data : List Nat, data.length = 2 * n →
      ∃ l, int16View data = some l ∧ l.length = n ∧
        ∀ i, i < n →
          l.getD i 0 = bytesToInt16 (data.getD (2 * i) 0) (data.getD (2 * i + 1) 0) := by
  induction n with
  | zero =>
    intro data h
    have hnil : data = [] := List.length_eq_zero.mp (by omega)
    subst hnil
    exact ⟨[], rfl, rfl, fun i hi => absurd hi (Nat.not_lt_zero i)⟩
  | succ n ih =>
    intro data h
    match data with
    | [] => simp at h
    | [a] => simp at h; omega
    | lo :: hi :: rest =>
      have hr : rest.length = 2 * n := by
        simp only [List.length_cons] at h
        omega
      obtain ⟨l, hv, hl, hidx⟩ := ih rest hr
      refine ⟨bytesToInt16 lo hi :: l, ?_, ?_, ?_⟩
      · simp [int16View, hv]
      · simp [hl]
      · intro i hi'
        match i with
        | 0 => rfl
        | j + 1 =>
          have hj : j < n := by omega
          have e1 : 2 * (j + 1) = 2 * j + 1 + 1 := by ring
          have e2 : 2 * (j + 1) + 1 = 2 * j + 1 + 1 + 1 := by ring
          rw [e2, e1]
          simp only [List.getD_cons_succ]
          exact hidx j hj

/-- On an odd-length byte list the `Int16Array` view fails (the constructor
throws before any sample is produced). -/
theorem int16View_odd_none (data : List Nat) (h : data.length % 2 = 1) :
    int16View data = none := by
  induction data using int16View.induct with
  | case1 => simp at h
  | case2 x => rfl
  | case3 lo hi rest ih =>
    have hr : rest.length % 2 = 1 := by
      simp only [List.length_cons] at h
      omega
    simp [int16View, ih hr]

/-- C8 counterexample: the claim quantifies over every mono payload of `n`
samples, but at `n = 0` (the empty payload, whose byte length is even)
`decodeAudioData` produces no buffer at all — `ctx.createBuffer` throws
`NotSupportedError` on the zero frame count — rather than a buffer of
exactly 0 frames. -/
theorem decode_pcm_empty_payload_counterexample :
    decodeAudioData ([] : List Nat) 24000 1 = none ∧
    ¬ ∃ samples : List ℚ,
        decodeAudioData ([] : List Nat) 24000 1 =
          some { sampleRate := 24000, numberOfChannels := 1, channels := [samples] } := by
  refine ⟨rfl, ?_⟩
  rintro ⟨samples, h⟩
  rw [show decodeAudioData ([] : List Nat) 24000 1 = none from rfl] at h
  cases h

/-- C8 amended: for every non-empty mono 16-bit PCM payload of `n ≥ 1`
samples (an even-length byte list, each byte below 256), `decodeAudioData`
at 24 kHz produces one channel of exactly `n` frames whose `i`-th sample is
the `i`-th signed little-endian 16-bit input sample divided by 32768, hence
lies in the half-open interval from -1 to 1; the empty payload is excluded
because `ctx.createBuffer` throws on a zero frame count. -/
theorem decode_pcm_normalized (data : List Nat) (n : Nat) (hn : 0 < n)
    (hlen : data.length = 2 * n) (hb : ∀ b ∈ data, b < 256) :
    ∃ samples : List ℚ,
      decodeAudioData data 24000 1 =
        some { sampleRate := 24000, numberOfChannels := 1, channels := [samples] } ∧
      samples.length = n ∧
      ∀ i, i < n →
        samples.getD i 0 =
          (bytesToInt16 (data.getD (2 * i) 0) (data.getD (2 * i + 1) 0) : ℚ) / 32768 ∧
        -1 ≤ samples.getD i 0 ∧ samples.getD i 0 < 1 := by
  obtain ⟨l, hv, hl, hidx⟩ := int16View_even n data hlen
  refine ⟨(List.range n).map
      (fun i => ((l.getD i 0 : Int) : ℚ) / 32768), ?_, ?_, ?_⟩
  · unfold decodeAudioData
    rw [hv]
    have hr1 : List.range 1 = [0] := rfl
    have hne : n ≠ 0 := by omega
    simp [hl, hr1, hne]
  · simp
  · intro i hi
    have hsamp : ((List.range n).map
        (fun i => ((l.getD i 0 : Int) : ℚ) / 32768)).getD i 0
        = ((l.getD i 0 : Int) : ℚ) / 32768 := by
      rw [List.getD_eq_getElem?_getD, List.getElem?_map, List.getElem?_range hi]
      simp
    have h2i : 2 * i < data.length := by omega
    have h2i1 : 2 * i + 1 < data.length := by omega
    have hm1 : data.getD (2 * i) 0 < 256 := by
      rw [List.getD_eq_getElem data 0 h2i]
      exact hb _ (List.getElem_mem h2i)
    have hm2 : data.getD (2 * i + 1) 0 < 256 := by
      rw [List.getD_eq_getElem data 0 h2i1]
      exact hb _ (List.getElem_mem h2i1)
    obtain ⟨hlo, hhi⟩ := bytesToInt16_bounds _ _ hm1 hm2
    obtain ⟨hr1, hr2⟩ := sample_unit_range _ hlo hhi
    rw [hsamp, hidx i hi]
    exact ⟨rfl, hr1, hr2⟩

/-- C8 witness: the payload `52 18 FF FF` decodes to the two samples
`0x1234 / 32768` and `-1 / 32768`. -/
theorem decode_pcm_normalized_witness :
    ∃ samples : List ℚ,
      decodeAudioData [52, 18, 255, 255] 24000 1 =
        some { sampleRate := 24000, numberOfChannels := 1, channels := [samples] } ∧
      samples.length = 2 ∧
      ∀ i, i < 2 →
        samples.getD i 0 =
          (bytesToInt16 (([52, 18, 255, 255] : List Nat).getD (2 * i) 0)
            (([52, 18, 255, 255] : List Nat).getD (2 * i + 1) 0) : ℚ) / 32768 ∧
        -1 ≤ samples.getD i 0 ∧ samples.getD i 0 < 1 :=
  decode_pcm_normalized [52, 18, 255, 255] 2 (by decide) rfl (by decide)

/-- C10: for every payload of even byte length the `Int16Array` view is
well-defined with `length / 2` entries (the mono frame count) and every
channel-data access `i * numChannels + channel` made by the fill loop is in
range, so decoding succeeds whenever the payload is non-empty (evenness is
necessary for decoding: see the odd conjunct); for odd byte length the view
construction fails before any sample is produced and decoding returns
nothing; the empty payload, although even, fails later at `createBuffer`. -/
theorem decode_total_iff_even_length (data : List Nat) :
    (data.length % 2 = 0 →
      ∃ l, int16View data = some l ∧ l.length = data.length / 2 ∧
        (data ≠ [] → (decodeAudioData data 24000 1).isSome = true) ∧
        ∀ i, i < l.length / 1 → i * 1 + 0 < l.length) ∧
    (data.length % 2 = 1 →
      int16View data = none ∧ decodeAudioData data 24000 1 = none) ∧
    (data = [] → decodeAudioData data 24000 1 = none) := by
  refine ⟨?_, ?_, ?_⟩
  · intro he
    obtain ⟨l, hv, hl, _⟩ := int16View_even (data.length / 2) data (by omega)
    refine ⟨l, hv, hl, ?_, ?_⟩
    · intro hne
      have hpos : 0 < data.length := List.length_pos.mpr hne
      have hfr : l.length / 1 ≠ 0 := by omega
      have hlne : l ≠ [] := by
        intro hnil
        exact hfr (by simp [hnil])
      unfold decodeAudioData
      rw [hv]
      simp [hfr, hlne]
    · intro i hi
      omega
  · intro ho
    have hn := int16View_odd_none data ho
    refine ⟨hn, ?_⟩
    unfold decodeAudioData
    rw [hn]
  · intro h
    subst h
    rfl

/-- C10 witness: a two-byte payload decodes, a three-byte payload fails at
the view, the empty payload fails at buffer creation. -/
theorem decode_total_iff_even_length_witness :
    (decodeAudioData [1, 2] 24000 1).isSome = true ∧
    decodeAudioData [1, 2, 3] 24000 1 = none ∧
    decodeAudioData ([] : List Nat) 24000 1 = none := by
  obtain ⟨l, _, _, hs, _⟩ := (decode_total_iff_even_length [1, 2]).1 rfl
  exact ⟨hs (by decide), ((decode_total_iff_even_length [1, 2, 3]).2.1 rfl).2,
    (decode_total_iff_even_length []).2.2 rfl⟩

end GlobalEcho
